import Mathlib

/-!
Shallow embedding of the `hub` package (an in-process typed event
dispatcher).  The embedding follows the Go source:

* `GoType` / `GoValue` model `reflect.Type` / runtime values;
* `Sink` models the three sink strategies (`sinkFunc`, `sinkChan`,
  `sinkMethod`), compared by identity via a pointer id;
* `newSink` is the listener inspector from `sink.go`;
* `subscriptions` (with `add`, `remove`, `publish`) is the copy-on-write
  registry from `subscriptions.go`, modelled as an association list with
  unique keys standing for the Go map;
* `hub` operations (`load`, `Publish`, `Subscribe`, cancel) model `hub.go`,
  with the atomic cell's contents made an explicit `Option subscriptions`
  state (`none` = nothing ever stored).

Sink invocation behaviour (the wrapped listener code, which lives outside
the repository) is abstracted by a function `send : Sink → GoValue → Bool`
returning `true` when the listener returns normally and `false` when it
panics; `publish` produces the ordered trace of invocations together with
a flag saying whether a panic escaped.
-/

/-- Channel direction, modelling `reflect.ChanDir`. -/
inductive ChanDir : Type where
  | bothDir : ChanDir
  | sendDir : ChanDir
  | recvDir : ChanDir
deriving DecidableEq, Repr

mutual
/-- A model of Go runtime types (`reflect.Type`) rich enough for the hub:
function types carry their input types and the number of outputs, channel
types a direction and element type, interface types a tag, and all other
(concrete, non-func, non-chan) types a tag plus a method set.  Each method
is recorded as its `Method.Func` type: the list of inputs (receiver first)
and the number of outputs.  The input-type and method lists are inlined
inductives (`GoTypeList`, `MethodList`) to keep the mutual recursion
structural. -/
inductive GoType : Type where
  | func (ins : GoTypeList) (numOut : Nat) : GoType
  | chan (dir : ChanDir) (elem : GoType) : GoType
  | iface (id : Nat) : GoType
  | base (id : Nat) (methods : MethodList) : GoType
deriving DecidableEq

inductive GoTypeList : Type where
  | nil : GoTypeList
  | cons (head : GoType) (tail : GoTypeList) : GoTypeList
deriving DecidableEq

inductive MethodList : Type where
  | nil : MethodList
  | cons (ins : GoTypeList) (numOut : Nat) (tail : MethodList) : MethodList
deriving DecidableEq
end

/-- `Kind() == reflect.Interface`. -/
def GoType.isInterface : GoType → Bool
  | .iface _ => true
  | _ => false

/-- A runtime Go value: its concrete type and an identity tag
distinguishing different values of the same type. -/
structure GoValue : Type where
  ty : GoType
  vid : Nat
deriving DecidableEq

/-- The three sink strategies of `sink.go`. -/
inductive SinkKind : Type where
  | fn : SinkKind
  | ch : SinkKind
  | method : SinkKind
deriving DecidableEq, Repr

/-- A sink (`sinkFunc` / `sinkChan` / `sinkMethod`).  Go compares sinks by
interface identity — each `newSink` call allocates a fresh pointer — which
the model captures with the pointer id `sid` supplied by the caller. -/
structure Sink : Type where
  kind : SinkKind
  sid : Nat
deriving DecidableEq, Repr

/-- The classified errors of `sink.go`. -/
inductive SinkErr : Type where
  | invalidListener : SinkErr
  | invalidFunction : SinkErr
  | invalidChannel : SinkErr
  | invalidEventType : SinkErr
deriving DecidableEq, Repr

/-- The `switch` block of `newSink`: dispatches on the listener's type kind
and validates its shape, producing the event type and a sink strategy or a
classified error.  A function listener must have exactly one input and no
outputs (event type = that input); a channel must not be receive-only
(event type = the element type); otherwise the type must have exactly one
method whose `Func` type has exactly two inputs (receiver first) and no
outputs (event type = the second input).  An interface-kinded listener
type cannot occur at runtime (`reflect.TypeOf` never yields one); it falls
to the default `ErrInvalidListener` arm like any other unsupported shape. -/
def classifyListener (sid : Nat) (listenerType : GoType) : Except SinkErr (GoType × Sink) :=
  match listenerType with
  | .func ins numOut =>
    match ins, numOut with
    | .cons ev .nil, 0 => .ok (ev, ⟨.fn, sid⟩)
    | _, _ => .error .invalidFunction
  | .chan dir elem =>
    match dir with
    | .recvDir => .error .invalidChannel
    | _ => .ok (elem, ⟨.ch, sid⟩)
  | .iface _ => .error .invalidListener
  | .base _ methods =>
    match methods with
    | .cons ins numOut .nil =>
      match ins, numOut with
      | .cons _ (.cons ev .nil), 0 => .ok (ev, ⟨.method, sid⟩)
      | _, _ => .error .invalidFunction
    | _ => .error .invalidListener

/-- `newSink` from `sink.go`: reflects on the candidate listener `t`
(`none` models a nil candidate, for which `reflect.TypeOf` is nil) and
returns the event type together with a sink, or a classified error.
After classification, an interface event type is rejected.
`sid` is the fresh pointer identity of the sink being allocated. -/
def newSink (sid : Nat) (t : Option GoValue) : Except SinkErr (GoType × Sink) :=
  match t with
  | none => .error .invalidListener
  | some v =>
    match classifyListener sid v.ty with
    | .error e => .error e
    | .ok p =>
      if p.1.isInterface then .error .invalidEventType
      else .ok p

/-- The copy-on-write registry of `subscriptions.go`:
`map[reflect.Type][]sink`, modelled as an association list with at most one
entry per type.  An absent key models both "key not in map" and the nil
map. -/
abbrev subscriptions : Type := List (GoType × List Sink)

/-- `s[eventType]` with the `ok` flag: `none` when the key is absent. -/
def subscriptions.find (s : subscriptions) (eventType : GoType) : Option (List Sink) :=
  match s with
  | [] => none
  | p :: rest => if p.1 = eventType then some p.2 else subscriptions.find rest eventType

/-- `s[eventType]` without the flag: the nil slice when the key is absent. -/
def subscriptions.sinksFor (s : subscriptions) (eventType : GoType) : List Sink :=
  (subscriptions.find s eventType).getD []

/-- `subscriptions.add`: clones the map and appends the new sink to the
given type's slice (`clone[eventType] = append(clone[eventType], newSink)`;
on an absent key this creates the entry). -/
def subscriptions.add (s : subscriptions) (eventType : GoType) (ns : Sink) : subscriptions :=
  match s with
  | [] => [(eventType, [ns])]
  | p :: rest =>
    if p.1 = eventType then (p.1, p.2 ++ [ns]) :: rest
    else p :: subscriptions.add rest eventType ns

/-- The filtering loop of `subscriptions.remove`: keeps every candidate not
identical to `oldSink`. -/
def removeSink (oldSink : Sink) (existing : List Sink) : List Sink :=
  existing.filter (fun candidate => candidate ≠ oldSink)

/-- The clone built by `subscriptions.remove` when the sink was found: every
entry copied, except the given type's slice is replaced by `updated`. -/
def subscriptions.replaceEntry (s : subscriptions) (eventType : GoType)
    (updated : List Sink) : subscriptions :=
  match s with
  | [] => []
  | p :: rest =>
    if p.1 = eventType then (p.1, updated) :: rest
    else p :: subscriptions.replaceEntry rest eventType updated

/-- `subscriptions.remove`: if the key is absent, or the slice does not
contain `oldSink`, the receiver itself is returned; otherwise a clone with
`oldSink` filtered out of that type's slice. -/
def subscriptions.remove (s : subscriptions) (eventType : GoType) (oldSink : Sink) :
    subscriptions :=
  match subscriptions.find s eventType with
  | none => s
  | some existing =>
    let updated := removeSink oldSink existing
    if existing.length = updated.length then s
    else subscriptions.replaceEntry s eventType updated

/-- The delivery loop of `subscriptions.publish`: invokes each sink's
`send` in slice order with the event value.  `send sk v = false` means the
listener panicked; the panic escapes at once, so later sinks never run.
Returns the ordered invocation trace (each invoked sink paired with the
value it received) and whether a panic escaped. -/
def runSinks (send : Sink → GoValue → Bool) (v : GoValue) :
    List Sink → List (Sink × GoValue) × Bool
  | [] => ([], false)
  | sk :: rest =>
    if send sk v then
      let r := runSinks send v rest
      ((sk, v) :: r.1, r.2)
    else
      ([(sk, v)], true)

/-- `subscriptions.publish`: resolves the event's runtime type
(`reflect.TypeOf e`, which is nil for a nil event and then matches no key)
and invokes each sink registered for it, in slice order. -/
def subscriptions.publish (send : Sink → GoValue → Bool) (s : subscriptions)
    (e : Option GoValue) : List (Sink × GoValue) × Bool :=
  match e with
  | none => ([], false)
  | some v => runSinks send v (subscriptions.sinksFor s v.ty)

/-- The hub's atomic cell: `none` models a fresh hub on which nothing was
ever stored (`atomic.Value.Load` returns nil). -/
abbrev HubState : Type := Option subscriptions

/-- `hub.load`: the failed type assertion on a nil `atomic.Value` yields the
nil `subscriptions` map, which behaves as the empty map. -/
def hub.load (st : HubState) : subscriptions :=
  st.getD []

/-- `hub.Publish`: loads the current snapshot and publishes on it. -/
def hub.Publish (send : Sink → GoValue → Bool) (st : HubState) (e : Option GoValue) :
    List (Sink × GoValue) × Bool :=
  subscriptions.publish send (hub.load st) e

/-- `hub.Subscribe`: classifies the listener; on error returns the state
unchanged with a nil Cancel (the error alone); on success stores
`load().add(eventType, s)` and returns the `(eventType, sink)` pair the
Cancel closure captures. -/
def hub.Subscribe (st : HubState) (sid : Nat) (l : Option GoValue) :
    HubState × Except SinkErr (GoType × Sink) :=
  match newSink sid l with
  | .error e => (st, .error e)
  | .ok (eventType, s) =>
    (some (subscriptions.add (hub.load st) eventType s), .ok (eventType, s))

/-- The body of the Cancel closure's `once.Do`: stores
`load().remove(eventType, s)`. -/
def hub.cancelStep (st : HubState) (eventType : GoType) (s : Sink) : HubState :=
  some (subscriptions.remove (hub.load st) eventType s)

/-- One invocation of a Cancel handle: the `sync.Once` gate is the boolean;
only the first invocation runs `cancelStep`. -/
def invokeCancel (eventType : GoType) (s : Sink) :
    HubState × Bool → HubState × Bool
  | (st, fired) =>
    if fired then (st, true)
    else (hub.cancelStep st eventType s, true)

/-- `NumIn`, for the modelled input-type lists. -/
def GoTypeList.length : GoTypeList → Nat
  | .nil => 0
  | .cons _ t => GoTypeList.length t + 1

/-- `NumMethod`, for the modelled method lists. -/
def MethodList.length : MethodList → Nat
  | .nil => 0
  | .cons _ _ t => MethodList.length t + 1

theorem subscriptions.find_add (s : subscriptions) (t t' : GoType) (ns : Sink) :
    subscriptions.find (subscriptions.add s t ns) t' =
      if t' = t then some (subscriptions.sinksFor s t ++ [ns])
      else subscriptions.find s t' := by
  induction s with
  | nil =>
    by_cases h : t' = t
    · subst h; simp [subscriptions.add, subscriptions.find, subscriptions.sinksFor]
    · have h2 : t ≠ t' := Ne.symm h
      simp [subscriptions.add, subscriptions.find, subscriptions.sinksFor, h, h2]
  | cons p rest ih =>
    by_cases hp : p.1 = t
    · by_cases h : t' = t
      · subst h
        simp [subscriptions.add, subscriptions.find, subscriptions.sinksFor, hp]
      · have hp' : p.1 ≠ t' := fun hh => h (hh ▸ hp)
        have h2 : t ≠ t' := Ne.symm h
        simp [subscriptions.add, subscriptions.find, hp, hp', h, h2]
    · by_cases h : t' = t
      · subst h
        have hp' : p.1 ≠ t' := hp
        simp [subscriptions.add, subscriptions.find, subscriptions.sinksFor, hp, hp', ih]
      · simp only [subscriptions.add, subscriptions.find, if_neg hp]
        by_cases hq : p.1 = t'
        · simp [subscriptions.find, hq, h]
        · simp [subscriptions.find, hq, ih, h]

theorem subscriptions.find_replaceEntry (s : subscriptions) (t t' : GoType)
    (u : List Sink) :
    subscriptions.find (subscriptions.replaceEntry s t u) t' =
      if t' = t then (subscriptions.find s t).map (fun _ => u)
      else subscriptions.find s t' := by
  induction s with
  | nil => simp [subscriptions.replaceEntry, subscriptions.find]
  | cons p rest ih =>
    by_cases hp : p.1 = t
    · by_cases h : t' = t
      · subst h
        simp [subscriptions.replaceEntry, subscriptions.find, hp]
      · have hp' : p.1 ≠ t' := fun hh => h (hh ▸ hp)
        have h2 : t ≠ t' := Ne.symm h
        simp [subscriptions.replaceEntry, subscriptions.find, hp, hp', h, h2]
    · by_cases h : t' = t
      · subst h
        have hp' : p.1 ≠ t' := hp
        simp [subscriptions.replaceEntry, subscriptions.find, hp, hp', ih]
      · simp only [subscriptions.replaceEntry, subscriptions.find, if_neg hp]
        by_cases hq : p.1 = t'
        · simp [subscriptions.find, hq, h]
        · simp [subscriptions.find, hq, ih, h]

theorem removeSink_eq_self_of_not_mem (sk : Sink) (l : List Sink) (h : sk ∉ l) :
    removeSink sk l = l := by
  unfold removeSink
  rw [List.filter_eq_self]
  intro a ha
  simp only [decide_eq_true_eq]
  exact fun hh => h (hh ▸ ha)

theorem removeSink_length_eq_iff (sk : Sink) (l : List Sink) :
    (removeSink sk l).length = l.length ↔ sk ∉ l := by
  induction l with
  | nil => simp [removeSink]
  | cons a rest ih =>
    by_cases ha : a = sk
    · subst ha
      have h1 : (removeSink a rest).length ≤ rest.length :=
        List.length_filter_le _ rest
      have h2 : removeSink a (a :: rest) = removeSink a rest := by
        simp [removeSink, List.filter_cons]
      rw [h2]
      simp only [List.length_cons, List.mem_cons]
      constructor
      · intro h; omega
      · intro h; exact absurd (Or.inl trivial) h
    · have h2 : removeSink sk (a :: rest) = a :: removeSink sk rest := by
        simp [removeSink, List.filter_cons, ha]
      have h3 : sk ≠ a := fun hh => ha hh.symm
      rw [h2]
      simp [List.length_cons, ih, h3]

theorem subscriptions.remove_of_find_none (s : subscriptions) (t : GoType) (sk : Sink)
    (hf : subscriptions.find s t = none) :
    subscriptions.remove s t sk = s := by
  unfold subscriptions.remove
  rw [hf]

theorem subscriptions.remove_of_no_occurrence (s : subscriptions) (t : GoType) (sk : Sink)
    (existing : List Sink) (hf : subscriptions.find s t = some existing)
    (hlen : existing.length = (removeSink sk existing).length) :
    subscriptions.remove s t sk = s := by
  unfold subscriptions.remove
  rw [hf]
  simp [hlen.symm]

theorem subscriptions.remove_of_occurrence (s : subscriptions) (t : GoType) (sk : Sink)
    (existing : List Sink) (hf : subscriptions.find s t = some existing)
    (hlen : existing.length ≠ (removeSink sk existing).length) :
    subscriptions.remove s t sk =
      subscriptions.replaceEntry s t (removeSink sk existing) := by
  unfold subscriptions.remove
  rw [hf]
  simp only []
  rw [if_neg hlen]

theorem subscriptions.sinksFor_remove (s : subscriptions) (t t' : GoType) (sk : Sink) :
    subscriptions.sinksFor (subscriptions.remove s t sk) t' =
      if t' = t then removeSink sk (subscriptions.sinksFor s t)
      else subscriptions.sinksFor s t' := by
  cases hf : subscriptions.find s t with
  | none =>
    rw [subscriptions.remove_of_find_none s t sk hf]
    by_cases h : t' = t
    · subst h
      simp [subscriptions.sinksFor, hf, removeSink]
    · simp [h]
  | some existing =>
    by_cases hlen : existing.length = (removeSink sk existing).length
    · rw [subscriptions.remove_of_no_occurrence s t sk existing hf hlen]
      have hnm : sk ∉ existing := (removeSink_length_eq_iff sk existing).mp hlen.symm
      by_cases h : t' = t
      · subst h
        have hsf : subscriptions.sinksFor s t' = existing := by
          simp [subscriptions.sinksFor, hf]
        rw [if_pos rfl, hsf, removeSink_eq_self_of_not_mem sk existing hnm]
      · simp [h]
    · rw [subscriptions.remove_of_occurrence s t sk existing hf hlen]
      unfold subscriptions.sinksFor
      rw [subscriptions.find_replaceEntry]
      by_cases h : t' = t
      · subst h
        simp [hf, subscriptions.sinksFor]
      · simp [h]

theorem subscriptions.find_mem (s : subscriptions) (t : GoType) (l : List Sink)
    (h : subscriptions.find s t = some l) : (t, l) ∈ s := by
  induction s with
  | nil => simp [subscriptions.find] at h
  | cons p rest ih =>
    by_cases hp : p.1 = t
    · simp only [subscriptions.find, if_pos hp, Option.some.injEq] at h
      have hpe : p = (t, l) := by
        cases p
        simp_all
      rw [hpe]
      exact List.mem_cons_self _ _
    · simp only [subscriptions.find, if_neg hp] at h
      exact List.mem_cons_of_mem p (ih h)

theorem subscriptions.sinksFor_not_mem (s : subscriptions) (sk : Sink) (t : GoType)
    (h : ∀ p ∈ s, sk ∉ p.2) : sk ∉ subscriptions.sinksFor s t := by
  unfold subscriptions.sinksFor
  cases hf : subscriptions.find s t with
  | none => simp
  | some l => simpa using h (t, l) (subscriptions.find_mem s t l hf)

theorem runSinks_all_true (send : Sink → GoValue → Bool) (v : GoValue) (l : List Sink)
    (h : ∀ sk ∈ l, send sk v = true) :
    runSinks send v l = (l.map (fun sk => (sk, v)), false) := by
  induction l with
  | nil => rfl
  | cons a rest ih =>
    have ha : send a v = true := h a (List.mem_cons_self a rest)
    have ih' := ih (fun sk hsk => h sk (List.mem_cons_of_mem a hsk))
    simp [runSinks, ha, ih']

theorem runSinks_panic (send : Sink → GoValue → Bool) (v : GoValue)
    (l1 : List Sink) (sb : Sink) (l2 : List Sink)
    (h1 : ∀ sk ∈ l1, send sk v = true) (hb : send sb v = false) :
    runSinks send v (l1 ++ sb :: l2) = ((l1 ++ [sb]).map (fun sk => (sk, v)), true) := by
  induction l1 with
  | nil => simp [runSinks, hb]
  | cons a t ih =>
    have ha : send a v = true := h1 a (List.mem_cons_self a t)
    have ih' := ih (fun sk hsk => h1 sk (List.mem_cons_of_mem a hsk))
    simp [runSinks, ha, ih']

theorem count_map_pair (l : List Sink) (v : GoValue) (s' : Sink) :
    (l.map (fun sk => (sk, v))).count (s', v) = l.count s' := by
  induction l with
  | nil => rfl
  | cons a rest ih =>
    simp only [List.map_cons, List.count_cons, ih]
    congr 1
    by_cases h : a = s'
    · simp [h]
    · simp [h, Prod.ext_iff]

theorem invokeCancel_iterate (t : GoType) (s : Sink) (st : HubState) (n : Nat)
    (h : 1 ≤ n) :
    Nat.iterate (invokeCancel t s) n (st, false) = invokeCancel t s (st, false) := by
  obtain ⟨m, rfl⟩ : ∃ m, n = m + 1 := ⟨n - 1, by omega⟩
  rw [Function.iterate_succ_apply]
  have hstep : invokeCancel t s (st, false) = (hub.cancelStep st t s, true) := rfl
  have hfix : invokeCancel t s (hub.cancelStep st t s, true) =
      (hub.cancelStep st t s, true) := rfl
  rw [hstep, Function.iterate_fixed hfix m]

theorem subscriptions.sinksFor_add (s : subscriptions) (t t' : GoType) (ns : Sink) :
    subscriptions.sinksFor (subscriptions.add s t ns) t' =
      if t' = t then subscriptions.sinksFor s t ++ [ns]
      else subscriptions.sinksFor s t' := by
  unfold subscriptions.sinksFor
  rw [subscriptions.find_add]
  by_cases h : t' = t
  · simp [h, subscriptions.sinksFor]
  · simp [h]

theorem count_removeSink_of_ne (s' sk : Sink) (l : List Sink) (h : s' ≠ sk) :
    (removeSink sk l).count s' = l.count s' := by
  induction l with
  | nil => rfl
  | cons a rest ih =>
    by_cases ha : a = sk
    · subst ha
      have h2 : removeSink a (a :: rest) = removeSink a rest := by
        simp [removeSink, List.filter_cons]
      rw [h2, ih]
      have : s' ≠ a := h
      simp [List.count_cons, this.symm]
    · have h2 : removeSink sk (a :: rest) = a :: removeSink sk rest := by
        simp [removeSink, List.filter_cons, ha]
      rw [h2]
      simp [List.count_cons, ih]

/-- C10: Publish is total at the public boundary.  On a fresh hub whose
atomic cell has never been stored (`none`, so `load` yields the nil
registry), and likewise when the published value is nil (whose
`reflect.TypeOf` is nil and matches no registered key), `Publish` invokes
no sink and returns normally (no panic escapes). -/
theorem hub.publish_total_on_empty (send : Sink → GoValue → Bool) :
    (∀ e : Option GoValue, hub.Publish send none e = ([], false)) ∧
    (∀ st : HubState, hub.Publish send st none = ([], false)) := by
  constructor
  · intro e
    cases e with
    | none => rfl
    | some v => rfl
  · intro st
    rfl

/-- C4: `subscriptions.add` returns a registry equal to the receiver except
that the given type's sink list gains the new sink appended at the end:
under every key `t'` the result's entry is unchanged, while under `t` it is
the old list (nil if absent) with the sink appended.  The receiver itself
is a pure value that `add` never mutates (the model is a clone). -/
theorem subscriptions.add_spec (s : subscriptions) (t : GoType) (ns : Sink) (t' : GoType) :
    subscriptions.find (subscriptions.add s t ns) t' =
      if t' = t then some (subscriptions.sinksFor s t ++ [ns])
      else subscriptions.find s t' :=
  subscriptions.find_add s t t' ns

/-- C3: `subscriptions.remove` is a no-op returning the very same registry
value when the `(t, sk)` pair is absent (no entry for `t`, or its list does
not contain `sk`); when the pair is present it returns a clone equal to the
receiver except that `t`'s list has `sk` filtered out by identity. -/
theorem subscriptions.remove_spec (s : subscriptions) (t : GoType) (sk : Sink) :
    (sk ∉ subscriptions.sinksFor s t → subscriptions.remove s t sk = s) ∧
    (sk ∈ subscriptions.sinksFor s t →
      ∀ t' : GoType,
        subscriptions.find (subscriptions.remove s t sk) t' =
          if t' = t then some (removeSink sk (subscriptions.sinksFor s t))
          else subscriptions.find s t') := by
  constructor
  · intro hnm
    cases hf : subscriptions.find s t with
    | none => exact subscriptions.remove_of_find_none s t sk hf
    | some existing =>
      have hex : subscriptions.sinksFor s t = existing := by
        simp [subscriptions.sinksFor, hf]
      rw [hex] at hnm
      exact subscriptions.remove_of_no_occurrence s t sk existing hf
        ((removeSink_length_eq_iff sk existing).mpr hnm).symm
  · intro hmem t'
    cases hf : subscriptions.find s t with
    | none =>
      rw [subscriptions.sinksFor, hf] at hmem
      cases hmem
    | some existing =>
      have hex : subscriptions.sinksFor s t = existing := by
        simp [subscriptions.sinksFor, hf]
      rw [hex] at hmem
      have hlen : existing.length ≠ (removeSink sk existing).length :=
        fun hh => (removeSink_length_eq_iff sk existing).mp hh.symm hmem
      rw [subscriptions.remove_of_occurrence s t sk existing hf hlen,
        subscriptions.find_replaceEntry]
      by_cases h : t' = t
      · subst h
        simp [hf, hex]
      · simp [h]

/-- C9: when the sink occurs (at least once) in the event type's list,
`remove` eliminates every occurrence: the resulting list counts zero
occurrences of the sink and equals the identity-filter of the old list, so
the relative order of the remaining sinks is preserved. -/
theorem subscriptions.remove_all_occurrences (s : subscriptions) (t : GoType) (sk : Sink)
    (h : 1 ≤ (subscriptions.sinksFor s t).count sk) :
    (subscriptions.sinksFor (subscriptions.remove s t sk) t).count sk = 0 ∧
    subscriptions.sinksFor (subscriptions.remove s t sk) t =
      removeSink sk (subscriptions.sinksFor s t) := by
  have h2 := subscriptions.sinksFor_remove s t t sk
  rw [if_pos rfl] at h2
  refine ⟨?_, h2⟩
  rw [h2, List.count_eq_zero]
  intro hmem
  have := List.of_mem_filter hmem
  simp at this

/-- C5: `publish` resolves the event's runtime type, looks up that type's
sink list and invokes each sink with the event, synchronously and in list
order (when no sink panics the trace is exactly that list, each entry
receiving the published value, and no panic escapes); when no list exists
for the type, nothing is invoked and no error occurs. -/
theorem subscriptions.publish_spec (send : Sink → GoValue → Bool) (s : subscriptions)
    (v : GoValue) (hns : ∀ sk ∈ subscriptions.sinksFor s v.ty, send sk v = true) :
    subscriptions.publish send s (some v) =
      ((subscriptions.sinksFor s v.ty).map (fun sk => (sk, v)), false) ∧
    (subscriptions.find s v.ty = none →
      subscriptions.publish send s (some v) = ([], false)) := by
  have hred : subscriptions.publish send s (some v) =
      runSinks send v (subscriptions.sinksFor s v.ty) := rfl
  constructor
  · rw [hred]
    exact runSinks_all_true send v _ hns
  · intro hf
    rw [hred, subscriptions.sinksFor, hf]
    rfl

/-- C7: if a sink panics during `publish`, the panic propagates out
immediately and synchronously: every sink before the panicking one in the
list has already been invoked, the panicking sink itself is the last entry
of the trace, the sinks after it are never invoked, and the panic flag
escapes (nothing is caught or retried). -/
theorem subscriptions.publish_panic (send : Sink → GoValue → Bool) (s : subscriptions)
    (v : GoValue) (l1 : List Sink) (sb : Sink) (l2 : List Sink)
    (hl : subscriptions.sinksFor s v.ty = l1 ++ sb :: l2)
    (h1 : ∀ sk ∈ l1, send sk v = true)
    (hb : send sb v = false) :
    subscriptions.publish send s (some v) =
      ((l1 ++ [sb]).map (fun sk => (sk, v)), true) := by
  have hred : subscriptions.publish send s (some v) =
      runSinks send v (subscriptions.sinksFor s v.ty) := rfl
  rw [hred, hl]
  exact runSinks_panic send v l1 sb l2 h1 hb

/-- C1: subscribing a valid single-argument, no-return function listener of
(non-interface) event type `T` succeeds, and then publishing a value whose
runtime type is `T` invokes that function's sink exactly once with that
value, while publishing a value of any other runtime type never invokes it.
The sink id is fresh (Go allocates a new sink pointer per Subscribe) and no
listener panics during delivery. -/
theorem hub.subscribe_then_publish (send : Sink → GoValue → Bool) (st : HubState)
    (sid vid : Nat) (T : GoType)
    (hT : T.isInterface = false)
    (hfresh : ∀ p ∈ hub.load st, (⟨SinkKind.fn, sid⟩ : Sink) ∉ p.2)
    (hsend : ∀ sk v, send sk v = true) :
    (hub.Subscribe st sid (some ⟨GoType.func (.cons T .nil) 0, vid⟩)).2 =
      Except.ok (T, ⟨SinkKind.fn, sid⟩) ∧
    (∀ v : GoValue, v.ty = T →
      (hub.Publish send (hub.Subscribe st sid (some ⟨GoType.func (.cons T .nil) 0, vid⟩)).1
          (some v)).1.count (⟨SinkKind.fn, sid⟩, v) = 1) ∧
    (∀ v : GoValue, v.ty ≠ T →
      ∀ x ∈ (hub.Publish send (hub.Subscribe st sid (some ⟨GoType.func (.cons T .nil) 0, vid⟩)).1
          (some v)).1, x.1 ≠ ⟨SinkKind.fn, sid⟩) := by
  have hns : newSink sid (some ⟨GoType.func (.cons T .nil) 0, vid⟩) =
      (if T.isInterface then Except.error SinkErr.invalidEventType
       else Except.ok (T, ⟨SinkKind.fn, sid⟩)) := rfl
  rw [hT] at hns
  simp only [Bool.false_eq_true, if_false] at hns
  have hsub : hub.Subscribe st sid (some ⟨GoType.func (.cons T .nil) 0, vid⟩) =
      (some (subscriptions.add (hub.load st) T ⟨SinkKind.fn, sid⟩),
        Except.ok (T, ⟨SinkKind.fn, sid⟩)) := by
    unfold hub.Subscribe
    rw [hns]
  refine ⟨by rw [hsub], ?_, ?_⟩
  · intro v hv
    subst hv
    rw [hsub]
    have hpub : hub.Publish send
        (some (subscriptions.add (hub.load st) v.ty ⟨SinkKind.fn, sid⟩)) (some v) =
        runSinks send v
          (subscriptions.sinksFor
            (subscriptions.add (hub.load st) v.ty ⟨SinkKind.fn, sid⟩) v.ty) := rfl
    rw [hpub, runSinks_all_true send v _ (fun sk _ => hsend sk v), count_map_pair,
      subscriptions.sinksFor_add, if_pos rfl, List.count_append]
    have h0 : (subscriptions.sinksFor (hub.load st) v.ty).count (⟨SinkKind.fn, sid⟩ : Sink) = 0 :=
      List.count_eq_zero.mpr (subscriptions.sinksFor_not_mem (hub.load st) _ v.ty hfresh)
    rw [h0]
    simp
  · intro v hv x hx
    rw [hsub] at hx
    have hpub : hub.Publish send
        (some (subscriptions.add (hub.load st) T ⟨SinkKind.fn, sid⟩)) (some v) =
        runSinks send v
          (subscriptions.sinksFor
            (subscriptions.add (hub.load st) T ⟨SinkKind.fn, sid⟩) v.ty) := rfl
    rw [hpub, runSinks_all_true send v _ (fun sk _ => hsend sk v)] at hx
    simp only [List.mem_map] at hx
    obtain ⟨sk', hsk', rfl⟩ := hx
    rw [subscriptions.sinksFor_add, if_neg hv] at hsk'
    intro hcontra
    exact subscriptions.sinksFor_not_mem (hub.load st) _ v.ty hfresh (hcontra ▸ hsk')

/-- C2: every invalid candidate yields its classified error from `newSink`
(nil candidate or an unsupported shape: `InvalidListener`; a function with
other than one input or with outputs, or a single method with other than one
event input (two including the receiver) or with outputs:
`InvalidFunction`; a receive-only channel: `InvalidChannel`; an accepted
shape whose resolved event type is an interface: `InvalidEventType`), and a
failed `Subscribe` returns the unchanged state with that error and no
cancel handle, so a subsequent `Publish` behaves exactly as before the
failed call. -/
theorem hub.subscribe_error_spec (st : HubState) (sid : Nat) :
    (newSink sid none = Except.error SinkErr.invalidListener) ∧
    (∀ vid : Nat, ∀ ins : GoTypeList, ∀ numOut : Nat,
      GoTypeList.length ins ≠ 1 ∨ numOut ≠ 0 →
      newSink sid (some ⟨GoType.func ins numOut, vid⟩) =
        Except.error SinkErr.invalidFunction) ∧
    (∀ vid : Nat, ∀ elem : GoType,
      newSink sid (some ⟨GoType.chan ChanDir.recvDir elem, vid⟩) =
        Except.error SinkErr.invalidChannel) ∧
    (∀ vid bid : Nat, ∀ methods : MethodList, MethodList.length methods ≠ 1 →
      newSink sid (some ⟨GoType.base bid methods, vid⟩) =
        Except.error SinkErr.invalidListener) ∧
    (∀ vid bid : Nat, ∀ ins : GoTypeList, ∀ numOut : Nat,
      GoTypeList.length ins ≠ 2 ∨ numOut ≠ 0 →
      newSink sid (some ⟨GoType.base bid (.cons ins numOut .nil), vid⟩) =
        Except.error SinkErr.invalidFunction) ∧
    (∀ vid i : Nat,
      newSink sid (some ⟨GoType.func (.cons (GoType.iface i) .nil) 0, vid⟩) =
        Except.error SinkErr.invalidEventType) ∧
    (∀ vid i : Nat, ∀ dir : ChanDir, dir ≠ ChanDir.recvDir →
      newSink sid (some ⟨GoType.chan dir (GoType.iface i), vid⟩) =
        Except.error SinkErr.invalidEventType) ∧
    (∀ vid bid i : Nat, ∀ r : GoType,
      newSink sid
        (some ⟨GoType.base bid (.cons (.cons r (.cons (GoType.iface i) .nil)) 0 .nil), vid⟩) =
        Except.error SinkErr.invalidEventType) ∧
    (∀ l : Option GoValue, ∀ e : SinkErr, newSink sid l = Except.error e →
      hub.Subscribe st sid l = (st, Except.error e) ∧
      ∀ send : Sink → GoValue → Bool, ∀ ev : Option GoValue,
        hub.Publish send (hub.Subscribe st sid l).1 ev = hub.Publish send st ev) := by
  refine ⟨rfl, ?_, fun vid elem => rfl, ?_, ?_, fun vid i => rfl, ?_,
    fun vid bid i r => rfl, ?_⟩
  · intro vid ins numOut h
    cases ins with
    | nil => cases numOut <;> rfl
    | cons a tl =>
      cases tl with
      | nil =>
        rcases h with h | h
        · exact absurd (show GoTypeList.length (GoTypeList.cons a GoTypeList.nil) = 1 by
            simp [GoTypeList.length]) h
        · cases numOut with
          | zero => exact absurd rfl h
          | succ k => rfl
      | cons b tl2 => cases numOut <;> rfl
  · intro vid bid methods h
    cases methods with
    | nil => rfl
    | cons i o tl =>
      cases tl with
      | nil => exact absurd (show MethodList.length (MethodList.cons i o MethodList.nil) = 1 by
          simp [MethodList.length]) h
      | cons i2 o2 tl2 => rfl
  · intro vid bid ins numOut h
    cases ins with
    | nil => cases numOut <;> rfl
    | cons a tl =>
      cases tl with
      | nil => cases numOut <;> rfl
      | cons b tl2 =>
        cases tl2 with
        | nil =>
          rcases h with h | h
          · exact absurd (show GoTypeList.length
                (GoTypeList.cons a (GoTypeList.cons b GoTypeList.nil)) = 2 by
              simp [GoTypeList.length]) h
          · cases numOut with
            | zero => exact absurd rfl h
            | succ k => rfl
        | cons c tl3 => cases numOut <;> rfl
  · intro vid i dir h
    cases dir with
    | bothDir => rfl
    | sendDir => rfl
    | recvDir => exact absurd rfl h
  · intro l e h
    have hsub : hub.Subscribe st sid l = (st, Except.error e) := by
      unfold hub.Subscribe
      rw [h]
    exact ⟨hsub, fun send ev => by rw [hsub]⟩

/-- C6: the Cancel handle is one-shot and idempotent — invoking it any
number of times N ≥ 1 leaves the hub in the same state as invoking it once
— and after cancellation a publish of the subscribed type no longer reaches
the cancelled sink, while every other sink registered for that type
receives exactly the same deliveries as before the cancellation (no
listener panicking during delivery). -/
theorem hub.cancel_idempotent (send : Sink → GoValue → Bool) (st : HubState)
    (T : GoType) (s : Sink) (n : Nat)
    (hn : 1 ≤ n) (hsend : ∀ sk v, send sk v = true) :
    Nat.iterate (invokeCancel T s) n (st, false) = invokeCancel T s (st, false) ∧
    (∀ v : GoValue, v.ty = T →
      ∀ x ∈ (hub.Publish send (invokeCancel T s (st, false)).1 (some v)).1, x.1 ≠ s) ∧
    (∀ v : GoValue, v.ty = T → ∀ s' : Sink, s' ≠ s →
      (hub.Publish send (invokeCancel T s (st, false)).1 (some v)).1.count (s', v) =
        (hub.Publish send st (some v)).1.count (s', v)) := by
  refine ⟨invokeCancel_iterate T s st n hn, ?_, ?_⟩
  · intro v hv x hx
    subst hv
    have hst : (invokeCancel v.ty s (st, false)).1 =
        some (subscriptions.remove (hub.load st) v.ty s) := rfl
    rw [hst] at hx
    have hpub : hub.Publish send (some (subscriptions.remove (hub.load st) v.ty s)) (some v) =
        runSinks send v
          (subscriptions.sinksFor (subscriptions.remove (hub.load st) v.ty s) v.ty) := rfl
    rw [hpub, runSinks_all_true send v _ (fun sk _ => hsend sk v)] at hx
    simp only [List.mem_map] at hx
    obtain ⟨sk', hsk', rfl⟩ := hx
    rw [subscriptions.sinksFor_remove, if_pos rfl] at hsk'
    have := List.of_mem_filter hsk'
    simpa using this
  · intro v hv s' hs'
    subst hv
    have hst : (invokeCancel v.ty s (st, false)).1 =
        some (subscriptions.remove (hub.load st) v.ty s) := rfl
    rw [hst]
    have hpub1 : hub.Publish send (some (subscriptions.remove (hub.load st) v.ty s)) (some v) =
        runSinks send v
          (subscriptions.sinksFor (subscriptions.remove (hub.load st) v.ty s) v.ty) := rfl
    have hpub2 : hub.Publish send st (some v) =
        runSinks send v (subscriptions.sinksFor (hub.load st) v.ty) := rfl
    rw [hpub1, hpub2, runSinks_all_true send v _ (fun sk _ => hsend sk v),
      runSinks_all_true send v _ (fun sk _ => hsend sk v), count_map_pair, count_map_pair,
      subscriptions.sinksFor_remove, if_pos rfl]
    exact count_removeSink_of_ne s' s _ hs'

/-- Witness for C3 at concrete registries: removing an absent sink returns
the same registry value; removing a present sink filters it out. -/
theorem subscriptions.remove_spec_witness :
    subscriptions.remove [(GoType.base 1 .nil, [⟨SinkKind.fn, 0⟩])] (GoType.base 1 .nil)
        ⟨SinkKind.fn, 1⟩ = [(GoType.base 1 .nil, [⟨SinkKind.fn, 0⟩])] ∧
    subscriptions.find
        (subscriptions.remove [(GoType.base 1 .nil, [⟨SinkKind.fn, 0⟩, ⟨SinkKind.fn, 1⟩])]
          (GoType.base 1 .nil) ⟨SinkKind.fn, 1⟩) (GoType.base 1 .nil) =
      some [⟨SinkKind.fn, 0⟩] := by
  constructor
  · exact (subscriptions.remove_spec _ _ _).1 (by decide)
  · have h := (subscriptions.remove_spec
      [(GoType.base 1 .nil, [⟨SinkKind.fn, 0⟩, ⟨SinkKind.fn, 1⟩])]
      (GoType.base 1 .nil) ⟨SinkKind.fn, 1⟩).2 (by decide) (GoType.base 1 .nil)
    rw [h]
    decide

/-- Witness for C9 at a registry holding two occurrences of the sink. -/
theorem subscriptions.remove_all_occurrences_witness :
    (subscriptions.sinksFor
        (subscriptions.remove
          [(GoType.base 1 .nil, [⟨SinkKind.fn, 0⟩, ⟨SinkKind.fn, 0⟩, ⟨SinkKind.ch, 2⟩])]
          (GoType.base 1 .nil) ⟨SinkKind.fn, 0⟩) (GoType.base 1 .nil)).count
        ⟨SinkKind.fn, 0⟩ = 0 :=
  (subscriptions.remove_all_occurrences
    [(GoType.base 1 .nil, [⟨SinkKind.fn, 0⟩, ⟨SinkKind.fn, 0⟩, ⟨SinkKind.ch, 2⟩])]
    (GoType.base 1 .nil) ⟨SinkKind.fn, 0⟩ (by decide)).1

/-- Witness for C5 at a concrete registry and event. -/
theorem subscriptions.publish_spec_witness :
    subscriptions.publish (fun _ _ => true)
        [(GoType.base 1 .nil, [⟨SinkKind.fn, 0⟩, ⟨SinkKind.ch, 1⟩])]
        (some ⟨GoType.base 1 .nil, 9⟩) =
      ([(⟨SinkKind.fn, 0⟩, ⟨GoType.base 1 .nil, 9⟩),
        (⟨SinkKind.ch, 1⟩, ⟨GoType.base 1 .nil, 9⟩)], false) := by
  have h := (subscriptions.publish_spec (fun _ _ => true)
    [(GoType.base 1 .nil, [⟨SinkKind.fn, 0⟩, ⟨SinkKind.ch, 1⟩])]
    ⟨GoType.base 1 .nil, 9⟩ (fun sk _ => rfl)).1
  rw [h]
  rfl

/-- Witness for C7: with the middle of three sinks panicking, the first two
are invoked (the panicking one last) and the third never runs. -/
theorem subscriptions.publish_panic_witness :
    subscriptions.publish (fun sk _ => sk.sid ≠ 1)
        [(GoType.base 1 .nil, [⟨SinkKind.fn, 0⟩, ⟨SinkKind.fn, 1⟩, ⟨SinkKind.fn, 2⟩])]
        (some ⟨GoType.base 1 .nil, 9⟩) =
      ([(⟨SinkKind.fn, 0⟩, ⟨GoType.base 1 .nil, 9⟩),
        (⟨SinkKind.fn, 1⟩, ⟨GoType.base 1 .nil, 9⟩)], true) := by
  have h := subscriptions.publish_panic (fun sk _ => sk.sid ≠ 1)
    [(GoType.base 1 .nil, [⟨SinkKind.fn, 0⟩, ⟨SinkKind.fn, 1⟩, ⟨SinkKind.fn, 2⟩])]
    ⟨GoType.base 1 .nil, 9⟩
    [⟨SinkKind.fn, 0⟩] ⟨SinkKind.fn, 1⟩ [⟨SinkKind.fn, 2⟩] (by decide) (by decide) (by decide)
  rw [h]
  rfl

/-- Witness for C6 at a concrete hub state: cancelling one of two sinks
three times equals cancelling once, and the surviving sink still receives
the publish with the same count. -/
theorem hub.cancel_idempotent_witness :
    Nat.iterate (invokeCancel (GoType.base 1 .nil) ⟨SinkKind.fn, 1⟩) 3
        (some [(GoType.base 1 .nil, [⟨SinkKind.fn, 0⟩, ⟨SinkKind.fn, 1⟩])], false) =
      invokeCancel (GoType.base 1 .nil) ⟨SinkKind.fn, 1⟩
        (some [(GoType.base 1 .nil, [⟨SinkKind.fn, 0⟩, ⟨SinkKind.fn, 1⟩])], false) ∧
    (hub.Publish (fun _ _ => true)
        (invokeCancel (GoType.base 1 .nil) ⟨SinkKind.fn, 1⟩
          (some [(GoType.base 1 .nil, [⟨SinkKind.fn, 0⟩, ⟨SinkKind.fn, 1⟩])], false)).1
        (some ⟨GoType.base 1 .nil, 9⟩)).1.count
        (⟨SinkKind.fn, 0⟩, ⟨GoType.base 1 .nil, 9⟩) =
      (hub.Publish (fun _ _ => true)
        (some [(GoType.base 1 .nil, [⟨SinkKind.fn, 0⟩, ⟨SinkKind.fn, 1⟩])])
        (some ⟨GoType.base 1 .nil, 9⟩)).1.count
        (⟨SinkKind.fn, 0⟩, ⟨GoType.base 1 .nil, 9⟩) := by
  have h := hub.cancel_idempotent (fun _ _ => true)
    (some [(GoType.base 1 .nil, [⟨SinkKind.fn, 0⟩, ⟨SinkKind.fn, 1⟩])])
    (GoType.base 1 .nil) ⟨SinkKind.fn, 1⟩ 3 (by omega) (fun _ _ => rfl)
  exact ⟨h.1, h.2.2 ⟨GoType.base 1 .nil, 9⟩ rfl ⟨SinkKind.fn, 0⟩ (by decide)⟩

/-- Witness for C1: on a fresh hub, subscribing a one-argument function of
a concrete event type and publishing a value of that type delivers exactly
once to that function's sink. -/
theorem hub.subscribe_then_publish_witness :
    (hub.Publish (fun _ _ => true)
        (hub.Subscribe none 0
          (some ⟨GoType.func (.cons (GoType.base 1 .nil) .nil) 0, 5⟩)).1
        (some ⟨GoType.base 1 .nil, 9⟩)).1.count
        (⟨SinkKind.fn, 0⟩, ⟨GoType.base 1 .nil, 9⟩) = 1 :=
  (hub.subscribe_then_publish (fun _ _ => true) none 0 5 (GoType.base 1 .nil)
    rfl (fun p hp => absurd hp (List.not_mem_nil p)) (fun _ _ => rfl)).2.1
    ⟨GoType.base 1 .nil, 9⟩ rfl

/-- Witness for C2: a zero-argument function gets `InvalidFunction`, a
method-less value gets `InvalidListener`, and a nil candidate leaves a
non-empty hub state untouched while returning `InvalidListener`. -/
theorem hub.subscribe_error_spec_witness :
    newSink 0 (some ⟨GoType.func GoTypeList.nil 0, 3⟩) =
      Except.error SinkErr.invalidFunction ∧
    newSink 0 (some ⟨GoType.base 7 MethodList.nil, 3⟩) =
      Except.error SinkErr.invalidListener ∧
    hub.Subscribe (some [(GoType.base 1 .nil, [⟨SinkKind.fn, 0⟩])]) 0 none =
      (some [(GoType.base 1 .nil, [⟨SinkKind.fn, 0⟩])],
        Except.error SinkErr.invalidListener) := by
  have h := hub.subscribe_error_spec (some [(GoType.base 1 .nil, [⟨SinkKind.fn, 0⟩])]) 0
  refine ⟨h.2.1 3 GoTypeList.nil 0 (Or.inl (by decide)),
    h.2.2.2.1 3 7 MethodList.nil (by decide), ?_⟩
  exact (h.2.2.2.2.2.2.2.2 none SinkErr.invalidListener h.1).1
